import Mathlib

/-!
Verification of the cellular-automaton core of `hash_grid.py`
(repository hashart-life).

The embedding mirrors the source: a grid is a list of rows, each row a
list of 0/1 cells; `create_grid`, `get_neighbors`, `evolve_grid` and the
seed-encoding / evolution loop of `generate_png_art` are translated
directly.  Python list indexing `grid[y][x]` (always in bounds for the
well-formed grids the program manipulates) is rendered with `List.getD`,
and in-place assignment `grid[y][x] = v` with `List.set` on the row.
-/

namespace HashGrid

/-- Constant `SVG_SIZE = 32`, the grid side length. -/
def SVG_SIZE : Nat := 32

/-- Constant `MAX_BYTES = (SVG_SIZE * SVG_SIZE + 7) // 8`, the seed byte
capacity. -/
def MAX_BYTES : Nat := (SVG_SIZE * SVG_SIZE + 7) / 8

/-- A grid is a list of rows of cells, as in the Python `List[List[int]]`. -/
abbrev Grid := List (List Nat)

/-- Function `create_grid`: a fresh `SVG_SIZE × SVG_SIZE` grid of zeros. -/
def create_grid : Grid :=
  (List.range SVG_SIZE).map (fun _ => (List.range SVG_SIZE).map (fun _ => 0))

/-- Reading `grid[y][x]` (0 when out of bounds, which never happens on the
well-formed grids the program builds). -/
def cellAt (grid : Grid) (x y : Nat) : Nat :=
  (grid.getD y []).getD x 0

/-- Writing `grid[y][x] = v` (a no-op out of bounds, which never happens on
the well-formed grids the program builds). -/
def setCell (grid : Grid) (y x v : Nat) : Grid :=
  grid.set y ((grid.getD y []).set x v)

/-- Function `get_neighbors(grid, x, y)`: sum of the 8 toroidally wrapped
neighbors, scanning offsets `i, j ∈ range(-1, 2)` and skipping `(0, 0)`;
each coordinate is computed as `(c + offset + SVG_SIZE) % SVG_SIZE`. -/
def get_neighbors (grid : Grid) (x y : Nat) : Nat :=
  ([-1, 0, 1] : List Int).foldl (fun count i =>
    ([-1, 0, 1] : List Int).foldl (fun count j =>
      if i = 0 ∧ j = 0 then count
      else
        let new_x := (((x : Int) + i + (SVG_SIZE : Int)) % (SVG_SIZE : Int)).toNat
        let new_y := (((y : Int) + j + (SVG_SIZE : Int)) % (SVG_SIZE : Int)).toNat
        count + cellAt grid new_x new_y) count) 0

/-- Function `evolve_grid(grid)`: builds a fresh grid and fills every cell
`(x, y)` from the Game-of-Life rule applied to the old grid (a live cell
— Python truthiness, i.e. nonzero — survives on 2 or 3 neighbors, a dead
cell is born on exactly 3). -/
def evolve_grid (grid : Grid) : Grid :=
  (List.range SVG_SIZE).map (fun y =>
    (List.range SVG_SIZE).map (fun x =>
      let neighbors := get_neighbors grid x y
      if cellAt grid x y ≠ 0 then
        (if neighbors = 2 ∨ neighbors = 3 then 1 else 0)
      else
        (if neighbors = 3 then 1 else 0)))

/-- The UTF-8 bytes of the input text, `input_text.encode('utf-8')`. -/
def utf8Bytes (s : String) : List Nat :=
  s.toUTF8.data.toList.map (fun b => b.toNat)

/-- Body of the outer seed-encoding loop of `generate_png_art` for one byte
index `i`: take `byte = bytes_data[i]` (0 past the end), and for
`j = 7, 6, …, 0` write bit `(byte >> j) & 1` to the cell at flat index
`bit_index = i*8 + (7-j)` (column `bit_index % SVG_SIZE`, row
`bit_index // SVG_SIZE`), guarded by the bounds test of the source. -/
def seedByte (bytes_data : List Nat) (grid : Grid) (i : Nat) : Grid :=
  let byte := bytes_data.getD i 0
  (List.range 8).reverse.foldl (fun grid j =>
    let bit := (byte >>> j) % 2
    let bit_index := i * 8 + (7 - j)
    let x := bit_index % SVG_SIZE
    let y := bit_index / SVG_SIZE
    if y < SVG_SIZE ∧ x < SVG_SIZE then setCell grid y x bit else grid) grid

/-- The seed-encoding loop of `generate_png_art`: starting from
`create_grid()`, run `seedByte` for every `i in range(MAX_BYTES)`. -/
def seedGrid (bytes_data : List Nat) : Grid :=
  (List.range MAX_BYTES).foldl (seedByte bytes_data) create_grid

/-- The evolution loop of `generate_png_art`: `for _ in range(steps)`
applies `evolve_grid` once per iteration; `range` of a negative number
is empty, hence `Int.toNat`. -/
def runGrid (grid : Grid) (steps : Int) : Grid :=
  evolve_grid^[steps.toNat] grid

/-- The grid computed by `generate_png_art(input_text, steps)` just
before rendering: seed from the UTF-8 bytes, then evolve `steps` times. -/
def generate_art (input_text : String) (steps : Int) : Grid :=
  runGrid (seedGrid (utf8Bytes input_text)) steps

/-- A well-formed grid: `SVG_SIZE` rows of `SVG_SIZE` cells, each cell 0
or 1. -/
def WellFormed (grid : Grid) : Prop :=
  grid.length = SVG_SIZE ∧
    ∀ row ∈ grid, row.length = SVG_SIZE ∧ ∀ c ∈ row, c = 0 ∨ c = 1

instance : DecidablePred WellFormed := fun g => by
  unfold WellFormed; infer_instance

/-! ### Spec-side definitions (used to state the claims) -/

/-- Grid whose cell `(x, y)` holds `f x y`; `evolve_grid` and the seed
closed form are grids of this shape. -/
def mkGrid (f : Nat → Nat → Nat) : Grid :=
  (List.range SVG_SIZE).map (fun y => (List.range SVG_SIZE).map (fun x => f x y))

/-- Wrapped coordinate `(c + d) mod SVG_SIZE` for an integer offset `d`,
as in the spec's neighbor rule. -/
def wrap (c : Nat) (d : Int) : Nat :=
  (((c : Int) + d) % (SVG_SIZE : Int)).toNat

/-- Modelled from the spec's words: the neighbor count of `(x, y)` is the
sum of the live states of exactly the 8 cells at offsets
`(dx, dy) ∈ ⦃-1,0,1⦄² \ ⦃(0,0)⦄`, coordinates taken modulo `SVG_SIZE`. -/
def neighborSumSpec (grid : Grid) (x y : Nat) : Nat :=
  cellAt grid (wrap x (-1)) (wrap y (-1)) + cellAt grid (wrap x (-1)) (wrap y 0) +
    cellAt grid (wrap x (-1)) (wrap y 1) + cellAt grid (wrap x 0) (wrap y (-1)) +
    cellAt grid (wrap x 0) (wrap y 1) + cellAt grid (wrap x 1) (wrap y (-1)) +
    cellAt grid (wrap x 1) (wrap y 0) + cellAt grid (wrap x 1) (wrap y 1)

/-- Bit value that the seed encoding assigns to flat index `idx`: bit
`idx % 8` (0 = most significant) of byte `idx / 8` of the zero-padded
byte stream. -/
def seedSpecCell (bytes : List Nat) (idx : Nat) : Nat :=
  (bytes.getD (idx / 8) 0 >>> (7 - idx % 8)) % 2

/-- Modelled from the spec's words: the seed grid maps bit `j` of byte `i`
to the cell with flat index `idx = i*8 + j`, at `x = idx % SVG_SIZE`,
`y = idx / SVG_SIZE` (so cell `(x, y)` holds the bit of flat index
`y * SVG_SIZE + x`). -/
def seedSpec (bytes : List Nat) : Grid :=
  mkGrid (fun x y => seedSpecCell bytes (y * SVG_SIZE + x))

/-- The state of the seed grid after the first `k` bits (flat indices
`0, …, k-1`) have been written and no others. -/
def gridUpTo (bytes : List Nat) (k : Nat) : Grid :=
  mkGrid (fun x y =>
    if y * SVG_SIZE + x < k then seedSpecCell bytes (y * SVG_SIZE + x) else 0)

/-- One write of the seed loop, reformulated over the flat bit index. -/
def writeIdx (bytes : List Nat) (grid : Grid) (idx : Nat) : Grid :=
  if idx / SVG_SIZE < SVG_SIZE ∧ idx % SVG_SIZE < SVG_SIZE then
    setCell grid (idx / SVG_SIZE) (idx % SVG_SIZE) (seedSpecCell bytes idx)
  else grid

/-- The seed-encoding loop with the source's in-range guard removed:
every extracted bit is written unconditionally. -/
def seedByteNoGuard (bytes_data : List Nat) (grid : Grid) (i : Nat) : Grid :=
  let byte := bytes_data.getD i 0
  (List.range 8).reverse.foldl (fun grid j =>
    let bit := (byte >>> j) % 2
    let bit_index := i * 8 + (7 - j)
    let x := bit_index % SVG_SIZE
    let y := bit_index / SVG_SIZE
    setCell grid y x bit) grid

/-- Variant of `seedGrid` built with `seedByteNoGuard`. -/
def seedGridNoGuard (bytes_data : List Nat) : Grid :=
  (List.range MAX_BYTES).foldl (seedByteNoGuard bytes_data) create_grid

/-! ### Basic access lemmas -/

theorem getD_map_range {α : Type} (n : Nat) (f : Nat → α) (d : α) {i : Nat}
    (hi : i < n) : ((List.range n).map f).getD i d = f i := by
  simp [List.getD_eq_getElem?_getD, List.getElem?_range hi]

theorem cellAt_mkGrid (f : Nat → Nat → Nat) {x y : Nat}
    (hx : x < SVG_SIZE) (hy : y < SVG_SIZE) : cellAt (mkGrid f) x y = f x y := by
  unfold cellAt mkGrid
  rw [getD_map_range _ _ _ hy, getD_map_range _ _ _ hx]

theorem evolve_grid_eq_mkGrid (grid : Grid) :
    evolve_grid grid = mkGrid (fun x y =>
      if cellAt grid x y ≠ 0 then
        (if get_neighbors grid x y = 2 ∨ get_neighbors grid x y = 3 then 1 else 0)
      else
        (if get_neighbors grid x y = 3 then 1 else 0)) := rfl

theorem create_grid_eq_mkGrid : create_grid = mkGrid (fun _ _ => 0) := rfl

/-- The source's neighbor scan computes exactly the spec's 8-term sum. -/
theorem get_neighbors_eq_spec (grid : Grid) (x y : Nat) :
    get_neighbors grid x y = neighborSumSpec grid x y := by
  have hx1 : (((x : Int) + -1 + (SVG_SIZE : Int)) % (SVG_SIZE : Int)) =
      (((x : Int) + -1) % (SVG_SIZE : Int)) := Int.add_emod_self
  have hx2 : (((x : Int) + 0 + (SVG_SIZE : Int)) % (SVG_SIZE : Int)) =
      (((x : Int) + 0) % (SVG_SIZE : Int)) := Int.add_emod_self
  have hx3 : (((x : Int) + 1 + (SVG_SIZE : Int)) % (SVG_SIZE : Int)) =
      (((x : Int) + 1) % (SVG_SIZE : Int)) := Int.add_emod_self
  have hy1 : (((y : Int) + -1 + (SVG_SIZE : Int)) % (SVG_SIZE : Int)) =
      (((y : Int) + -1) % (SVG_SIZE : Int)) := Int.add_emod_self
  have hy2 : (((y : Int) + 0 + (SVG_SIZE : Int)) % (SVG_SIZE : Int)) =
      (((y : Int) + 0) % (SVG_SIZE : Int)) := Int.add_emod_self
  have hy3 : (((y : Int) + 1 + (SVG_SIZE : Int)) % (SVG_SIZE : Int)) =
      (((y : Int) + 1) % (SVG_SIZE : Int)) := Int.add_emod_self
  simp only [get_neighbors, neighborSumSpec, wrap, List.foldl_cons, List.foldl_nil,
    hx1, hx2, hx3, hy1, hy2, hy3]
  norm_num

/-- On a well-formed grid, every in-range cell reads as 0 or 1. -/
theorem wf_cell {grid : Grid} (h : WellFormed grid) {x y : Nat}
    (hx : x < SVG_SIZE) (hy : y < SVG_SIZE) :
    cellAt grid x y = 0 ∨ cellAt grid x y = 1 := by
  obtain ⟨hlen, hrows⟩ := h
  have hy2 : y < grid.length := by omega
  have hrow : grid.getD y [] = grid[y] := List.getD_eq_getElem _ _ hy2
  obtain ⟨hrlen, hcells⟩ := hrows grid[y] (grid.getElem_mem hy2)
  have hx2 : x < grid[y].length := by omega
  have hcell : (grid.getD y []).getD x 0 = grid[y][x] := by
    rw [hrow]; exact List.getD_eq_getElem _ _ hx2
  have := hcells grid[y][x] (List.getElem_mem hx2)
  unfold cellAt
  rw [hcell]
  exact this

/-- One evolution step always yields a well-formed grid. -/
theorem wf_evolve (grid : Grid) : WellFormed (evolve_grid grid) := by
  refine ⟨by simp [evolve_grid], ?_⟩
  intro row hrow
  simp only [evolve_grid, List.mem_map, List.mem_range] at hrow
  obtain ⟨y, _, rfl⟩ := hrow
  refine ⟨by simp, ?_⟩
  intro c hc
  simp only [List.mem_map, List.mem_range] at hc
  obtain ⟨x, _, rfl⟩ := hc
  split
  · split <;> simp
  · split <;> simp

/-! ### Closed form of the seed encoding -/

theorem length_mkGrid (f : Nat → Nat → Nat) : (mkGrid f).length = SVG_SIZE := by
  simp [mkGrid]

theorem getElem_mkGrid (f : Nat → Nat → Nat) {y : Nat} (h : y < (mkGrid f).length) :
    (mkGrid f)[y] = (List.range SVG_SIZE).map (fun x => f x y) := by
  simp [mkGrid]

theorem row_mkGrid (f : Nat → Nat → Nat) {y : Nat} (hy : y < SVG_SIZE) :
    (mkGrid f).getD y [] = (List.range SVG_SIZE).map (fun x => f x y) :=
  getD_map_range _ _ _ hy

theorem mkGrid_congr {f g : Nat → Nat → Nat}
    (h : ∀ x y, x < SVG_SIZE → y < SVG_SIZE → f x y = g x y) : mkGrid f = mkGrid g := by
  unfold mkGrid
  refine List.map_congr_left (fun y hy => ?_)
  refine List.map_congr_left (fun x hx => ?_)
  exact h x y (List.mem_range.mp hx) (List.mem_range.mp hy)

theorem set_map_range (g : Nat → Nat) (x0 v : Nat) :
    ((List.range SVG_SIZE).map g).set x0 v =
      (List.range SVG_SIZE).map (fun x => if x = x0 then v else g x) := by
  by_cases hx0 : x0 < SVG_SIZE
  · apply List.ext_getElem
    · simp
    · intro xx h1 h2
      have hxx : xx < SVG_SIZE := by simpa using h2
      rw [List.getElem_set]
      by_cases h : x0 = xx
      · subst h; simp
      · rw [if_neg h]
        simp [Ne.symm h]
  · rw [List.set_eq_of_length_le (by simpa using Nat.le_of_not_lt hx0)]
    refine List.map_congr_left (fun x hx => ?_)
    have : x < SVG_SIZE := List.mem_range.mp hx
    rw [if_neg (by omega)]

theorem setCell_mkGrid (f : Nat → Nat → Nat) (y0 x0 v : Nat) (hy0 : y0 < SVG_SIZE) :
    setCell (mkGrid f) y0 x0 v =
      mkGrid (fun x y => if y = y0 ∧ x = x0 then v else f x y) := by
  unfold setCell
  rw [row_mkGrid f hy0, set_map_range]
  apply List.ext_getElem
  · simp [mkGrid]
  · intro yy h1 h2
    have hyy : yy < SVG_SIZE := by
      have := length_mkGrid (fun x y => if y = y0 ∧ x = x0 then v else f x y)
      omega
    rw [List.getElem_set, getElem_mkGrid _ h2]
    by_cases h : y0 = yy
    · subst h
      rw [if_pos rfl]
      refine List.map_congr_left (fun x hx => ?_)
      by_cases hx0 : x = x0 <;> simp [hx0]
    · rw [if_neg h, getElem_mkGrid]
      refine List.map_congr_left (fun x hx => ?_)
      rw [if_neg (by omega)]

theorem writeIdx_gridUpTo (bytes : List Nat) (k : Nat) (hk : k < MAX_BYTES * 8) :
    writeIdx bytes (gridUpTo bytes k) k = gridUpTo bytes (k + 1) := by
  have hS : SVG_SIZE = 32 := rfl
  have hM : MAX_BYTES = 128 := rfl
  have hy0 : k / SVG_SIZE < SVG_SIZE := by rw [hS]; rw [hM] at hk; omega
  have hx0 : k % SVG_SIZE < SVG_SIZE := by rw [hS]; omega
  rw [writeIdx, if_pos ⟨hy0, hx0⟩]
  unfold gridUpTo
  rw [setCell_mkGrid _ _ _ _ hy0]
  apply mkGrid_congr
  intro x y hx hy
  by_cases hhit : y = k / SVG_SIZE ∧ x = k % SVG_SIZE
  · rw [if_pos hhit]
    have hidx : y * SVG_SIZE + x = k := by
      obtain ⟨h1, h2⟩ := hhit
      rw [hS] at h1 h2 ⊢
      omega
    rw [if_pos (by omega), hidx]
  · rw [if_neg hhit]
    have hne : y * SVG_SIZE + x ≠ k := by
      rw [hS] at hx hy ⊢
      rw [hS] at hhit
      omega
    by_cases hlt : y * SVG_SIZE + x < k
    · rw [if_pos hlt, if_pos (by omega)]
    · rw [if_neg hlt, if_neg (by omega)]

theorem seedStep_eq (bytes : List Nat) (i j : Nat) (hj : j < 8) (g : Grid) :
    (if (i * 8 + (7 - j)) / SVG_SIZE < SVG_SIZE ∧
        (i * 8 + (7 - j)) % SVG_SIZE < SVG_SIZE then
      setCell g ((i * 8 + (7 - j)) / SVG_SIZE) ((i * 8 + (7 - j)) % SVG_SIZE)
        ((bytes.getD i 0 >>> j) % 2)
    else g) = writeIdx bytes g (i * 8 + (7 - j)) := by
  unfold writeIdx seedSpecCell
  have h1 : (i * 8 + (7 - j)) / 8 = i := by omega
  have h2 : 7 - (i * 8 + (7 - j)) % 8 = j := by omega
  rw [h1, h2]

theorem seedByte_eq (bytes : List Nat) (g : Grid) (i : Nat) :
    seedByte bytes g i = List.foldl (writeIdx bytes) g
      [i * 8, i * 8 + 1, i * 8 + 2, i * 8 + 3, i * 8 + 4, i * 8 + 5, i * 8 + 6,
        i * 8 + 7] := by
  have hrev : (List.range 8).reverse = [7, 6, 5, 4, 3, 2, 1, 0] := rfl
  unfold seedByte
  rw [hrev]
  simp only [List.foldl_cons, List.foldl_nil]
  rw [seedStep_eq bytes i 7 (by omega), seedStep_eq bytes i 6 (by omega),
    seedStep_eq bytes i 5 (by omega), seedStep_eq bytes i 4 (by omega),
    seedStep_eq bytes i 3 (by omega), seedStep_eq bytes i 2 (by omega),
    seedStep_eq bytes i 1 (by omega), seedStep_eq bytes i 0 (by omega)]
  norm_num

theorem seedAux_eq (bytes : List Nat) :
    ∀ n, n ≤ MAX_BYTES →
      (List.range n).foldl (seedByte bytes) create_grid = gridUpTo bytes (n * 8) := by
  intro n
  induction n with
  | zero =>
    intro _
    rw [List.range_zero, List.foldl_nil, create_grid_eq_mkGrid]
    unfold gridUpTo
    apply mkGrid_congr
    intro x y _ _
    rw [if_neg (by omega)]
  | succ n ih =>
    intro h
    have hM : MAX_BYTES = 128 := rfl
    have h128 : n < 128 := by rw [hM] at h; omega
    have step : ∀ a b : Nat, a = b → b < MAX_BYTES * 8 →
        writeIdx bytes (gridUpTo bytes a) b = gridUpTo bytes (b + 1) := by
      intro a b hab hb
      rw [hab]
      exact writeIdx_gridUpTo bytes b hb
    rw [List.range_succ, List.foldl_append, List.foldl_cons, List.foldl_nil,
      ih (by omega), seedByte_eq]
    simp only [List.foldl_cons, List.foldl_nil]
    rw [step (n * 8) (n * 8) rfl (by rw [hM]; omega),
      step (n * 8 + 1) (n * 8 + 1) rfl (by rw [hM]; omega),
      step (n * 8 + 1 + 1) (n * 8 + 2) (by omega) (by rw [hM]; omega),
      step (n * 8 + 2 + 1) (n * 8 + 3) (by omega) (by rw [hM]; omega),
      step (n * 8 + 3 + 1) (n * 8 + 4) (by omega) (by rw [hM]; omega),
      step (n * 8 + 4 + 1) (n * 8 + 5) (by omega) (by rw [hM]; omega),
      step (n * 8 + 5 + 1) (n * 8 + 6) (by omega) (by rw [hM]; omega),
      step (n * 8 + 6 + 1) (n * 8 + 7) (by omega) (by rw [hM]; omega),
      show n * 8 + 7 + 1 = (n + 1) * 8 by ring]

theorem seedGrid_eq_gridUpTo (bytes : List Nat) :
    seedGrid bytes = gridUpTo bytes (MAX_BYTES * 8) :=
  seedAux_eq bytes MAX_BYTES le_rfl

/-- Closed form of the seed loop: the grid of `seedSpec`. -/
theorem seedGrid_eq_seedSpec (bytes : List Nat) : seedGrid bytes = seedSpec bytes := by
  rw [seedGrid_eq_gridUpTo]
  unfold gridUpTo seedSpec
  apply mkGrid_congr
  intro x y hx hy
  rw [if_pos]
  have hS : SVG_SIZE = 32 := rfl
  have hM : MAX_BYTES = 128 := rfl
  rw [hS] at hx hy ⊢
  rw [hM]
  omega

theorem cellAt_seedGrid (bytes : List Nat) {x y : Nat}
    (hx : x < SVG_SIZE) (hy : y < SVG_SIZE) :
    cellAt (seedGrid bytes) x y = seedSpecCell bytes (y * SVG_SIZE + x) := by
  rw [seedGrid_eq_seedSpec]
  exact cellAt_mkGrid _ hx hy

theorem cellAt_mkGrid_out (f : Nat → Nat → Nat) (x y : Nat)
    (h : SVG_SIZE ≤ x ∨ SVG_SIZE ≤ y) : cellAt (mkGrid f) x y = 0 := by
  by_cases hy : y < SVG_SIZE
  · unfold cellAt
    rw [row_mkGrid f hy]
    rcases h with h | h
    · exact List.getD_eq_default _ _ (by simpa using h)
    · omega
  · unfold cellAt
    rw [List.getD_eq_default (mkGrid f) ([] : List Nat)
      (by rw [length_mkGrid]; omega)]
    simp

/-- With the byte guard of the source dropped, every byte index below
`MAX_BYTES` writes the same cells. -/
theorem seedByte_eq_noGuard (bytes : List Nat) (g : Grid) {i : Nat}
    (hi : i < MAX_BYTES) : seedByte bytes g i = seedByteNoGuard bytes g i := by
  unfold seedByte seedByteNoGuard
  apply List.foldl_ext
  intro g' j hj
  have hj8 : j < 8 := by
    rw [List.mem_reverse, List.mem_range] at hj; exact hj
  have hM : MAX_BYTES = 128 := rfl
  have hS : SVG_SIZE = 32 := rfl
  rw [hM] at hi
  rw [if_pos]
  refine ⟨?_, ?_⟩ <;> rw [hS] <;> omega

theorem seedGrid_eq_noGuard (bytes : List Nat) :
    seedGrid bytes = seedGridNoGuard bytes := by
  unfold seedGrid seedGridNoGuard
  apply List.foldl_ext
  intro g i hi
  exact seedByte_eq_noGuard bytes g (List.mem_range.mp hi)

/-- The seed depends on the byte stream only through `bytes.getD i 0` for
`i < MAX_BYTES`. -/
theorem seedByte_congr {b1 b2 : List Nat} {i : Nat}
    (h : b1.getD i 0 = b2.getD i 0) (g : Grid) :
    seedByte b1 g i = seedByte b2 g i := by
  unfold seedByte
  rw [h]

theorem seedGrid_congr {b1 b2 : List Nat}
    (h : ∀ i < MAX_BYTES, b1.getD i 0 = b2.getD i 0) :
    seedGrid b1 = seedGrid b2 := by
  unfold seedGrid
  apply List.foldl_ext
  intro g i hi
  exact seedByte_congr (h i (List.mem_range.mp hi)) g

theorem runGrid_zero (g : Grid) : runGrid g 0 = g := rfl

theorem runGrid_of_neg (g : Grid) {s : Int} (h : s < 0) : runGrid g s = g := by
  unfold runGrid
  rw [Int.toNat_of_nonpos (le_of_lt h)]
  rfl

/-- A blinker-like test grid: live cells at `(0,0)`, `(1,0)`, `(2,0)`. -/
def rowTriple : Grid :=
  setCell (setCell (setCell create_grid 0 0 1) 0 1 1) 0 2 1

/-- A grid whose only live cell is the corner `(0,0)`. -/
def cornerGrid : Grid :=
  setCell create_grid 0 0 1

/-! ### Claims -/

/-- C1: for every 32×32 grid of 0/1 cells and every cell `(x, y)`, one
`evolve_grid` step sets the new cell to live iff the old cell is live
with toroidal neighbor count exactly 2 or 3, or dead with count exactly
3; in all other cases the new cell is dead. -/
theorem claim_C1_evolve_rule (grid : Grid) (x y : Nat) (hwf : WellFormed grid)
    (hx : x < SVG_SIZE) (hy : y < SVG_SIZE) :
    cellAt (evolve_grid grid) x y =
      if (cellAt grid x y = 1 ∧
            (get_neighbors grid x y = 2 ∨ get_neighbors grid x y = 3)) ∨
          (cellAt grid x y = 0 ∧ get_neighbors grid x y = 3) then 1 else 0 := by
  rw [evolve_grid_eq_mkGrid, cellAt_mkGrid _ hx hy]
  rcases wf_cell hwf hx hy with h | h <;> rw [h] <;> simp

/-- Witness for C1 on the concrete grid `rowTriple` at cell `(1, 0)`. -/
theorem claim_C1_witness :
    WellFormed rowTriple ∧ 1 < SVG_SIZE ∧ 0 < SVG_SIZE ∧
      cellAt (evolve_grid rowTriple) 1 0 =
        if (cellAt rowTriple 1 0 = 1 ∧
              (get_neighbors rowTriple 1 0 = 2 ∨ get_neighbors rowTriple 1 0 = 3)) ∨
            (cellAt rowTriple 1 0 = 0 ∧ get_neighbors rowTriple 1 0 = 3)
        then 1 else 0 :=
  ⟨by decide, by decide, by decide,
    claim_C1_evolve_rule rowTriple 1 0 (by decide) (by decide) (by decide)⟩

/-- C2: `get_neighbors` is the sum of the live states of exactly the 8
cells at offsets `(dx, dy) ∈ ⦃-1,0,1⦄² \ ⦃(0,0)⦄` with both coordinates
modulo 32; and on the grid whose only live cell is `(0,0)`, the cells
`(31,31)`, `(31,0)` and `(0,31)` each count `(0,0)` among their
neighbors. -/
theorem claim_C2_neighbor_count (grid : Grid) (x y : Nat)
    (_hx : x < SVG_SIZE) (_hy : y < SVG_SIZE) :
    get_neighbors grid x y = neighborSumSpec grid x y ∧
      (get_neighbors cornerGrid 31 31 = 1 ∧ get_neighbors cornerGrid 31 0 = 1 ∧
        get_neighbors cornerGrid 0 31 = 1) :=
  ⟨get_neighbors_eq_spec grid x y, by decide, by decide, by decide⟩

/-- Witness for C2 on the concrete grid `cornerGrid` at cell `(3, 4)`. -/
theorem claim_C2_witness :
    3 < SVG_SIZE ∧ 4 < SVG_SIZE ∧
      (get_neighbors cornerGrid 3 4 = neighborSumSpec cornerGrid 3 4 ∧
        (get_neighbors cornerGrid 31 31 = 1 ∧ get_neighbors cornerGrid 31 0 = 1 ∧
          get_neighbors cornerGrid 0 31 = 1)) :=
  ⟨by decide, by decide, claim_C2_neighbor_count cornerGrid 3 4 (by decide) (by decide)⟩

/-- C3: the seed grid realises exactly the spec's bit-to-cell mapping
(bit `j`, 0 = most significant, of zero-padded byte `i` goes to cell
`x = (i*8+j) % 32`, `y = (i*8+j) / 32`), and input `"A"` (byte `0x41`)
seeds live cells exactly at `(1,0)` and `(7,0)`. -/
theorem claim_C3_seed_mapping :
    (∀ bytes : List Nat, seedGrid bytes = seedSpec bytes) ∧
      ∀ x < SVG_SIZE, ∀ y < SVG_SIZE,
        cellAt (seedGrid (utf8Bytes "A")) x y =
          if (x = 1 ∧ y = 0) ∨ (x = 7 ∧ y = 0) then 1 else 0 := by
  have h2 : ∀ x < SVG_SIZE, ∀ y < SVG_SIZE,
      cellAt (seedSpec (utf8Bytes "A")) x y =
        if (x = 1 ∧ y = 0) ∨ (x = 7 ∧ y = 0) then 1 else 0 := by decide
  refine ⟨seedGrid_eq_seedSpec, fun x hx y hy => ?_⟩
  rw [seedGrid_eq_seedSpec]
  exact h2 x hx y hy

/-- Witness for C3 at byte stream `[65]` and cell `(7, 0)`. -/
theorem claim_C3_witness :
    (seedGrid [65] = seedSpec [65]) ∧ 7 < SVG_SIZE ∧ 0 < SVG_SIZE ∧
      cellAt (seedGrid (utf8Bytes "A")) 7 0 =
        if ((7 : Nat) = 1 ∧ (0 : Nat) = 0) ∨ ((7 : Nat) = 7 ∧ (0 : Nat) = 0)
        then 1 else 0 :=
  ⟨claim_C3_seed_mapping.1 [65], by decide, by decide,
    claim_C3_seed_mapping.2 7 (by decide) 0 (by decide)⟩

/-- C4: running the automaton for zero steps is the identity on the
grid. -/
theorem claim_C4_run_zero (grid : Grid) : runGrid grid 0 = grid :=
  runGrid_zero grid

/-- C5 counterexample: at `steps = -1` the run does not fail — it
returns a grid, namely the input grid unchanged (`range` of a negative
number is empty, so the loop body never executes). -/
theorem claim_C5_counterexample : runGrid create_grid (-1) = create_grid := rfl

/-- C5 (amended): a negative step count is not rejected; for every grid
and every `steps < 0` the run performs zero evolution steps and returns
the input grid unchanged. -/
theorem claim_C5_negative_steps (grid : Grid) (steps : Int) (h : steps < 0) :
    runGrid grid steps = grid :=
  runGrid_of_neg grid h

/-- Witness for the amended C5 at `create_grid` and `steps = -2`. -/
theorem claim_C5_witness :
    (-2 : Int) < 0 ∧ runGrid create_grid (-2) = create_grid :=
  ⟨by decide, claim_C5_negative_steps create_grid (-2) (by decide)⟩

/-- C6: the encode-then-evolve pipeline is deterministic — equal input
text and equal step count give bitwise-identical grids. -/
theorem claim_C6_deterministic (t1 t2 : String) (s1 s2 : Int)
    (ht : t1 = t2) (hs : s1 = s2) : generate_art t1 s1 = generate_art t2 s2 := by
  rw [ht, hs]

/-- Witness for C6 at text `"A"` and one step. -/
theorem claim_C6_witness :
    ("A" : String) = "A" ∧ (1 : Int) = 1 ∧ generate_art "A" 1 = generate_art "A" 1 :=
  ⟨rfl, rfl, claim_C6_deterministic "A" "A" 1 1 rfl rfl⟩

/-- C7: evolution preserves the grid shape invariant — starting from any
well-formed 32×32 grid of 0/1 cells, any number of `evolve_grid` steps
again yields exactly 32 rows of 32 cells, each 0 or 1. -/
theorem claim_C7_shape_invariant (grid : Grid) (n : Nat) (h : WellFormed grid) :
    WellFormed (evolve_grid^[n] grid) := by
  induction n with
  | zero => exact h
  | succ n _ =>
    rw [Function.iterate_succ_apply']
    exact wf_evolve _

/-- Witness for C7: one step from `create_grid`. -/
theorem claim_C7_witness :
    WellFormed create_grid ∧ WellFormed (evolve_grid^[1] create_grid) :=
  ⟨by decide, claim_C7_shape_invariant create_grid 1 (by decide)⟩

/-- C8: for `N = 32` the seed encoding loses no bits — the capacity is
exactly 128 bytes = 1024 bits, every flat index below 1024 passes the
in-range guard, distinct indices land on distinct cells, and dropping
the guard altogether changes nothing. -/
theorem claim_C8_no_bit_loss :
    MAX_BYTES = 128 ∧
      (∀ idx < MAX_BYTES * 8, idx / SVG_SIZE < SVG_SIZE ∧ idx % SVG_SIZE < SVG_SIZE) ∧
      (∀ idx1 < MAX_BYTES * 8, ∀ idx2 < MAX_BYTES * 8,
        idx1 % SVG_SIZE = idx2 % SVG_SIZE → idx1 / SVG_SIZE = idx2 / SVG_SIZE →
          idx1 = idx2) ∧
      (∀ bytes : List Nat, seedGrid bytes = seedGridNoGuard bytes) := by
  have hS : SVG_SIZE = 32 := rfl
  have hM : MAX_BYTES = 128 := rfl
  refine ⟨hM, ?_, ?_, seedGrid_eq_noGuard⟩
  · intro idx h
    rw [hM] at h
    rw [hS]
    omega
  · intro idx1 h1 idx2 h2 hmod hdiv
    rw [hS] at hmod hdiv
    omega

/-- Witness for C8 at flat index 1023 and byte stream `[65]`. -/
theorem claim_C8_witness :
    (1023 < MAX_BYTES * 8 ∧
        (1023 / SVG_SIZE < SVG_SIZE ∧ 1023 % SVG_SIZE < SVG_SIZE)) ∧
      seedGrid [65] = seedGridNoGuard [65] :=
  ⟨⟨by decide, claim_C8_no_bit_loss.2.1 1023 (by decide)⟩,
    claim_C8_no_bit_loss.2.2.2 [65]⟩

/-- C9: seeding from the empty string and evolving zero steps produces
the all-dead grid — every cell is 0. -/
theorem claim_C9_empty_input (x y : Nat) : cellAt (generate_art "" 0) x y = 0 := by
  have hempty : utf8Bytes "" = [] := by decide
  unfold generate_art
  rw [runGrid_zero, hempty, seedGrid_eq_seedSpec]
  by_cases hx : x < SVG_SIZE
  · by_cases hy : y < SVG_SIZE
    · rw [seedSpec, cellAt_mkGrid _ hx hy]
      simp [seedSpecCell]
    · exact cellAt_mkGrid_out _ _ _ (Or.inr (by omega))
  · exact cellAt_mkGrid_out _ _ _ (Or.inl (by omega))

/-- C10: the seed grid — and hence the whole pipeline at equal step
counts — depends only on the first `MAX_BYTES = 128` bytes of the UTF-8
encoding of the input text; bytes at index 128 and beyond never
influence any cell. -/
theorem claim_C10_prefix_only (t1 t2 : String) (s : Int)
    (h : ∀ i < MAX_BYTES, (utf8Bytes t1).getD i 0 = (utf8Bytes t2).getD i 0) :
    generate_art t1 s = generate_art t2 s := by
  unfold generate_art
  rw [seedGrid_congr h]

/-- Witness for C10: two distinct 129-byte texts agreeing on their first
128 bytes yield identical output grids. -/
theorem claim_C10_witness :
    (∀ i < MAX_BYTES,
        (utf8Bytes (String.mk (List.replicate 128 'a' ++ ['b']))).getD i 0 =
          (utf8Bytes (String.mk (List.replicate 128 'a' ++ ['c']))).getD i 0) ∧
      generate_art (String.mk (List.replicate 128 'a' ++ ['b'])) 0 =
        generate_art (String.mk (List.replicate 128 'a' ++ ['c'])) 0 :=
  ⟨by decide,
    claim_C10_prefix_only _ _ 0 (by decide)⟩

end HashGrid
